import Mathlib

/-!
Verification of `pytorch_object_detection/mask_rcnn/my_dataset_coco.py`.

Shallow embedding conventions:
* float32 tensors of coordinates / areas are modelled with exact rationals `ℚ`
  (the spec's claims are about the arithmetic structure, not rounding);
* int64 tensors are modelled with `ℤ`, uint8 / bool masks with `Bool`;
* a torch tensor of shape `(N, 4)` is a `List (List ℚ)` whose rows have length 4,
  a mask tensor of shape `(N, h, w)` is a `List (List (List Bool))`;
* the Python dicts (`coco91to80`, the returned target dict) are modelled as an
  association list and a structure with one field per key;
* the external `pycocotools` rasterizer (`frPyObjects` + `decode` + `any(dim=2)`)
  is abstracted as a parameter `rast : Seg → ℤ → ℤ → List (List Bool)`: the
  library guarantees that it returns one `height × width` mask per segmentation;
* Python `assert` failures and `None > 0` type errors are modelled by `Option`:
  `parse_targets` returns `none` exactly when the real function raises before
  building the target.
-/

namespace CocoDataset

/-- A COCO segmentation: a list of polygons, each a flat coordinate list.
It is opaque data handed to the external rasterizer. -/
abbrev Seg := List (List ℚ)

/-- A COCO bounding box in `[x, y, width, height]` format
(the four entries of the JSON `"bbox"` field). -/
structure BBox where
  x : ℚ
  y : ℚ
  bw : ℚ
  bh : ℚ
deriving Repr, DecidableEq

/-- One COCO annotation object, with the fields `parse_targets` and the
filtering helpers read. -/
structure Ann where
  bbox : BBox
  category_id : Nat
  iscrowd : Nat
  area : ℚ
  segmentation : Seg
deriving Repr, DecidableEq

/-- Models `torch.clamp(v, min := lo, max := hi)`, i.e. `min (max v lo) hi`. -/
def clampQ (lo hi v : ℚ) : ℚ := min (max v lo) hi

/-- Models `boxes[:, 2:] += boxes[:, :2]`: convert `[xmin, ymin, w, h]` to
`[xmin, ymin, xmax, ymax]` (one row of the `(N, 4)` tensor). -/
def boxXYWHtoXYXY (b : BBox) : List ℚ := [b.x, b.y, b.x + b.bw, b.y + b.bh]

/-- Models `boxes[:, 0::2].clamp_(min=0, max=w)` and `boxes[:, 1::2].clamp_(min=0, max=h)`:
clamp the even columns of one row to `[0, w]` and the odd columns to `[0, h]`. -/
def clampCols (w h : ℚ) (b : List ℚ) : List ℚ :=
  b.enum.map (fun p => if p.1 % 2 == 0 then clampQ 0 w p.2 else clampQ 0 h p.2)

/-- One row of the box conversion performed by `parse_targets`
(lines 134-138): xywh→xyxy followed by per-column clamping. -/
def convertBox (w h : ℚ) (b : BBox) : List ℚ := clampCols w h (boxXYWHtoXYXY b)

/-- One entry of `keep = (boxes[:, 3] > boxes[:, 1]) & (boxes[:, 2] > boxes[:, 0])`. -/
def keepB (b : List ℚ) : Bool :=
  decide (b.getD 1 0 < b.getD 3 0) && decide (b.getD 0 0 < b.getD 2 0)

/-- Boolean-mask indexing `xs[keep]` of a torch tensor along dimension 0. -/
def maskSelect {α : Type} (keep : List Bool) (xs : List α) : List α :=
  ((keep.zip xs).filter (fun p => p.1)).map (fun p => p.2)

/-- Model of `convert_coco_poly_mask` (lines 44-59): rasterize each segmentation to an
`height × width` mask via the external library, stack them along dimension 0;
an empty input yields the `(0, height, width)` zero tensor, i.e. `[]`. -/
def convert_coco_poly_mask (rast : Seg → ℤ → ℤ → List (List Bool))
    (segmentations : List Seg) (height width : ℤ) : List (List (List Bool)) :=
  let masks := segmentations.map (fun polygons => rast polygons height width)
  if masks.isEmpty then [] else masks

/-- The dictionary returned by `parse_targets`, one field per key. -/
structure Target where
  boxes : List (List ℚ)
  labels : List ℤ
  masks : List (List (List Bool))
  image_id : List ℤ
  area : List ℚ
  iscrowd : List Nat
deriving Repr, DecidableEq

/-- Model of `CocoDetection.parse_targets` (lines 120-164).  `w` and `h` default to
`None` in the source (`none` here); `assert w > 0` / `assert h > 0` raise on
`none` or a non-positive value, modelled by returning `none`. -/
def parse_targets (remap : Nat → ℤ) (rast : Seg → ℤ → ℤ → List (List Bool))
    (img_id : ℤ) (coco_targets : List Ann) (w h : Option ℤ) : Option Target :=
  match w, h with
  | some w, some h =>
    if 0 < w ∧ 0 < h then
      let anno := coco_targets.filter (fun obj => obj.iscrowd == 0)
      let boxes := anno.map (fun obj => convertBox (w : ℚ) (h : ℚ) obj.bbox)
      let classes := anno.map (fun obj => remap obj.category_id)
      let segmentations := anno.map (fun obj => obj.segmentation)
      let masks := convert_coco_poly_mask rast segmentations h w
      let keep := boxes.map keepB
      some { boxes := maskSelect keep boxes
             labels := maskSelect keep classes
             masks := maskSelect keep masks
             image_id := [img_id]
             area := anno.map (fun obj => obj.area)
             iscrowd := anno.map (fun obj => obj.iscrowd) }
    else none
  | _, _ => none

/-- Model of `_has_only_empty_bbox` (lines 20-21):
`all(any(o <= 1 for o in obj["bbox"][2:]) for obj in anno)`. -/
def _has_only_empty_bbox (anno : List Ann) : Bool :=
  anno.all (fun obj => decide (obj.bbox.bw ≤ 1) || decide (obj.bbox.bh ≤ 1))

/-- Model of `_has_valid_annotation` (lines 23-31). -/
def _has_valid_annotation (anno : List Ann) : Bool :=
  if anno.length = 0 then false
  else if _has_only_empty_bbox anno then false
  else true

/-- The `for ds_idx, img_id in enumerate(ids)` loop of
`_coco_remove_images_without_annotations` (lines 33-41), instrumented with a
counter of how many ids are examined (one `getAnnIds`/`loadAnns` per id). -/
def removeLoop (annsOf : Nat → List Ann) : List Nat → List Nat × Nat
  | [] => ([], 0)
  | img_id :: rest =>
    let anno := annsOf img_id
    let (valid_ids, count) := removeLoop annsOf rest
    (if _has_valid_annotation anno then img_id :: valid_ids else valid_ids, count + 1)

/-- Model of `_coco_remove_images_without_annotations` (lines 11-41); `annsOf img_id`
models `dataset.loadAnns(dataset.getAnnIds(imgIds=img_id, iscrowd=None))`. -/
def _coco_remove_images_without_annotations (annsOf : Nat → List Ann)
    (ids : List Nat) : List Nat :=
  (removeLoop annsOf ids).1

/-- The pieces of the `pycocotools.COCO` index that `__init__` reads:
the image-id keys of `coco.imgs` and, per image id, its annotation list;
`cats` is `coco.cats.items()` projected to `(id, name)` pairs (in COCO the
`"id"` field of the value equals the key, so `coco_classes` on line 89
rebuilds exactly this association list). -/
structure CocoDB where
  imgIds : List Nat
  annsOf : Nat → List Ann
  cats : List (Nat × String)

/-- Model of `coco91to80 = dict([(str(k), idx+1) for idx, (k, _) in enumerate(coco_classes.items())])`
(line 92), with the `str` of a category id modelled by the id itself
(`str` is injective on naturals). -/
def build_coco91to80 (cats : List (Nat × String)) : List (Nat × ℤ) :=
  cats.enum.map (fun p => (p.2.1, (p.1 : ℤ) + 1))

/-- Lines 112-118 of `__init__`: sort the image ids ascending; in train mode
filter out images without a valid annotation, in val mode keep them all.
The `assert dataset in ["train", "val"]` on line 74 is modelled by `none`
for any other mode string. -/
def init_ids (db : CocoDB) (mode : String) : Option (List Nat) :=
  if mode = "train" ∨ mode = "val" then
    let ids := db.imgIds.mergeSort (fun a b => a ≤ b)
    if mode = "train" then
      some (_coco_remove_images_without_annotations db.annsOf ids)
    else
      some ids
  else none

/-- Model of `__len__` (lines 189-190). -/
def coco_len (ids : List Nat) : Nat := ids.length

/-- The annotations of `coco_targets` surviving both filters of
`parse_targets`: `iscrowd == 0` and a non-degenerate converted box. -/
def keptAnns (w h : ℚ) (coco_targets : List Ann) : List Ann :=
  (coco_targets.filter (fun obj => obj.iscrowd == 0)).filter
    (fun obj => keepB (convertBox w h obj.bbox))

/-- A trivial all-background rasterizer, used to instantiate the abstract
external rasterizer on concrete inputs. -/
def rastZero : Seg → ℤ → ℤ → List (List Bool) :=
  fun _ height width => List.replicate height.toNat (List.replicate width.toNat false)

/-! ### Helper lemmas -/

/-- Boolean-mask indexing by a mask computed pointwise from the same list
is filtering: `xs.map f` indexed by the mask `xs.map p` is `(xs.filter p).map f`. -/
theorem maskSelect_map_map {α β : Type} (p : α → Bool) (f : α → β) (xs : List α) :
    maskSelect (xs.map p) (xs.map f) = (xs.filter p).map f := by
  induction xs with
  | nil => rfl
  | cons x xs ih =>
    cases hp : p x <;>
      simp only [List.map_cons, maskSelect, List.zip_cons_cons, List.filter_cons, hp] <;>
      simpa [maskSelect] using ih

/-- The empty-input branch of `convert_coco_poly_mask` coincides with plain
mapping: the result is always one rasterized mask per segmentation. -/
theorem convert_coco_poly_mask_eq_map (rast : Seg → ℤ → ℤ → List (List Bool))
    (segs : List Seg) (height width : ℤ) :
    convert_coco_poly_mask rast segs height width =
      segs.map (fun s => rast s height width) := by
  cases segs <;> simp [convert_coco_poly_mask]

/-- Full characterization of `parse_targets` on positive dimensions: the
result filters annotations by `iscrowd == 0` and by the keep mask, and maps
the surviving annotations to boxes, labels and masks in order. -/
theorem parse_targets_some (remap : Nat → ℤ) (rast : Seg → ℤ → ℤ → List (List Bool))
    (img_id : ℤ) (ts : List Ann) (w h : ℤ) (hw : 0 < w) (hh : 0 < h) :
    parse_targets remap rast img_id ts (some w) (some h) =
      some { boxes := (keptAnns (w : ℚ) (h : ℚ) ts).map
               (fun obj => convertBox (w : ℚ) (h : ℚ) obj.bbox)
             labels := (keptAnns (w : ℚ) (h : ℚ) ts).map (fun obj => remap obj.category_id)
             masks := (keptAnns (w : ℚ) (h : ℚ) ts).map (fun obj => rast obj.segmentation h w)
             image_id := [img_id]
             area := (ts.filter (fun obj => obj.iscrowd == 0)).map (fun obj => obj.area)
             iscrowd := (ts.filter (fun obj => obj.iscrowd == 0)).map
               (fun obj => obj.iscrowd) } := by
  simp [parse_targets, if_pos (And.intro hw hh), convert_coco_poly_mask_eq_map,
    List.map_map, Function.comp_def, maskSelect_map_map, keptAnns, Target.mk.injEq]

/-- A converted box row always has exactly 4 entries. -/
theorem convertBox_length (w h : ℚ) (b : BBox) : (convertBox w h b).length = 4 := rfl

/-- Explicit form of one converted box row. -/
theorem convertBox_eq (w h : ℚ) (b : BBox) :
    convertBox w h b =
      [clampQ 0 w b.x, clampQ 0 h b.y, clampQ 0 w (b.x + b.bw), clampQ 0 h (b.y + b.bh)] := by
  simp [convertBox, clampCols, boxXYWHtoXYXY, List.enum, List.enumFrom]

/-- Clamping to `[0, hi]` lands in `[0, hi]` whenever `0 ≤ hi`. -/
theorem clampQ_bounds (hi v : ℚ) (h : 0 ≤ hi) : 0 ≤ clampQ 0 hi v ∧ clampQ 0 hi v ≤ hi :=
  ⟨le_min (le_max_right v 0) h, min_le_right _ _⟩

/-- The keep predicate on an explicit 4-entry row is the conjunction of the
two strict inequalities of line 147. -/
theorem keepB_eq (x0 y0 x1 y1 : ℚ) :
    keepB [x0, y0, x1, y1] = true ↔ x0 < x1 ∧ y0 < y1 := by
  simp [keepB, and_comm]

/-- The instrumented removal loop computes a filter and counts one
annotation lookup per input id. -/
theorem removeLoop_spec (annsOf : Nat → List Ann) (ids : List Nat) :
    (removeLoop annsOf ids).1 = ids.filter (fun i => _has_valid_annotation (annsOf i)) ∧
      (removeLoop annsOf ids).2 = ids.length := by
  induction ids with
  | nil => exact ⟨rfl, rfl⟩
  | cons i rest ih =>
    cases hv : _has_valid_annotation (annsOf i) <;>
      simp [removeLoop, List.filter_cons, hv, ih.1, ih.2]

/-- Validity of an annotation list is the existence of one annotation whose
bbox has width and height both strictly greater than 1. -/
theorem _has_valid_annotation_iff (anno : List Ann) :
    _has_valid_annotation anno = true ↔
      anno ≠ [] ∧ ∃ obj ∈ anno, 1 < obj.bbox.bw ∧ 1 < obj.bbox.bh := by
  constructor
  · intro hva
    by_cases hlen : anno.length = 0
    · simp [ _has_valid_annotation, hlen] at hva
    · by_cases hemp : _has_only_empty_bbox anno = true
      · simp [ _has_valid_annotation, hlen, hemp] at hva
      · have hnil : anno ≠ [] := fun hn => hlen (by simp [hn])
        simp only [_has_only_empty_bbox, List.all_eq_true] at hemp
        push_neg at hemp
        obtain ⟨obj, hmem, hobj⟩ := hemp
        have hstrict : 1 < obj.bbox.bw ∧ 1 < obj.bbox.bh := by
          simpa [not_or, not_le] using hobj
        exact ⟨hnil, obj, hmem, hstrict.1, hstrict.2⟩
  · rintro ⟨hne, obj, hmem, hbw, hbh⟩
    have hlen : ¬ anno.length = 0 := by simpa [List.length_eq_zero] using hne
    have hemp : ¬ _has_only_empty_bbox anno = true := by
      simp only [_has_only_empty_bbox, List.all_eq_true]
      push_neg
      refine ⟨obj, hmem, ?_⟩
      simp only [ne_eq, Bool.or_eq_true, decide_eq_true_eq, not_or, not_le]
      exact ⟨hbw, hbh⟩
    simp [ _has_valid_annotation, hlen, hemp]

/-- Lookup in the association list built from `enumFrom`: the key at
position `i` of a duplicate-free key list maps to `base + i + 1`. -/
theorem lookup_enumFrom_build (cats : List (Nat × String)) :
    ∀ (base i : Nat) (hi : i < cats.length), (cats.map Prod.fst).Nodup →
      List.lookup (cats.get ⟨i, hi⟩).1
          ((cats.enumFrom base).map (fun p => (p.2.1, (p.1 : ℤ) + 1))) =
        some (((base + i : ℕ) : ℤ) + 1) := by
  induction cats with
  | nil => intro base i hi _; exact absurd hi (by simp)
  | cons c rest ih =>
    intro base i hi hnd
    cases i with
    | zero => simp [List.enumFrom, List.lookup]
    | succ j =>
      have hj : j < rest.length := Nat.lt_of_succ_lt_succ hi
      have hnd' : (c.1 ∉ rest.map Prod.fst) ∧ (rest.map Prod.fst).Nodup :=
        List.nodup_cons.mp (by simpa using hnd)
      have hkey : (rest.get ⟨j, hj⟩).1 ≠ c.1 := by
        intro heq
        exact hnd'.1 (heq ▸ List.mem_map_of_mem Prod.fst (rest.get_mem _ _))
      have hne : ((rest.get ⟨j, hj⟩).1 == c.1) = false := beq_eq_false_iff_ne.mpr hkey
      have hrec := ih (base + 1) j hj hnd'.2
      simp only [List.enumFrom, List.map_cons, List.get_cons_succ, List.lookup, hne]
      rw [hrec]
      congr 1
      push_cast
      ring

/-- Any successful lookup in the association list built from `enumFrom`
comes from some position `i` of the category list, with value `base + i + 1`. -/
theorem lookup_enumFrom_mem (cats : List (Nat × String)) (base : Nat) (k : Nat) (v : ℤ)
    (hlk : List.lookup k ((cats.enumFrom base).map (fun p => (p.2.1, (p.1 : ℤ) + 1))) =
      some v) :
    ∃ i : Fin cats.length, (cats.get i).1 = k ∧ v = ((base + i : ℕ) : ℤ) + 1 := by
  induction cats generalizing base with
  | nil => simp [List.enumFrom] at hlk
  | cons c rest ih =>
    by_cases hk : k = c.1
    · have hv : v = (base : ℤ) + 1 := by
        simp [List.enumFrom, List.lookup, hk] at hlk
        omega
      exact ⟨⟨0, Nat.succ_pos _⟩, by simpa using hk.symm, by simpa using hv⟩
    · have hne : (k == c.1) = false := beq_eq_false_iff_ne.mpr hk
      have hlk' : List.lookup k
          ((rest.enumFrom (base + 1)).map (fun p => (p.2.1, (p.1 : ℤ) + 1))) = some v := by
        simpa [List.enumFrom, List.lookup, hne] using hlk
      obtain ⟨j, hj1, hj2⟩ := ih (base + 1) hlk'
      refine ⟨⟨j.1 + 1, Nat.succ_lt_succ j.2⟩, by simpa using hj1, ?_⟩
      rw [hj2]
      push_cast
      ring

/-- Any successful lookup in the built remap comes from some position `i`
of the category list and returns `i + 1`. -/
theorem lookup_build_mem (cats : List (Nat × String)) (k : Nat) (v : ℤ)
    (hlk : List.lookup k (build_coco91to80 cats) = some v) :
    ∃ i : Fin cats.length, (cats.get i).1 = k ∧ v = (i : ℤ) + 1 := by
  obtain ⟨i, hi1, hi2⟩ := lookup_enumFrom_mem cats 0 k v (by simpa [build_coco91to80, List.enum] using hlk)
  exact ⟨i, hi1, by simpa using hi2⟩

/-- Clamping zero to a non-negative interval gives zero. -/
theorem clampQ_zero (hi : ℚ) (h : 0 ≤ hi) : clampQ 0 hi 0 = 0 := by
  simp [clampQ, max_self, min_eq_left h]

/-! ### Claims -/

/-- C1: for every image id, annotation list, and dimensions `w > 0`, `h > 0`,
`parse_targets` returns a dictionary with the keys `boxes` (shape `(N, 4)`),
`labels` (shape `(N,)`), `masks` (shape `(N, h, w)`), `image_id`
(one-element tensor holding the image id), `area` and `iscrowd`.  The
float32/int64 dtypes are modelled by `ℚ`/`ℤ`; the hypothesis `hrast` is the
external library's guarantee that each decoded mask has shape `(h, w)`. -/
theorem C1_parse_targets_shapes (remap : Nat → ℤ) (rast : Seg → ℤ → ℤ → List (List Bool))
    (img_id : ℤ) (ts : List Ann) (w h : ℤ) (hw : 0 < w) (hh : 0 < h)
    (hrast : ∀ s : Seg, (rast s h w).length = h.toNat ∧
      ∀ row ∈ rast s h w, row.length = w.toNat) :
    ∃ t : Target, parse_targets remap rast img_id ts (some w) (some h) = some t ∧
      t.image_id = [img_id] ∧
      t.labels.length = t.boxes.length ∧
      t.masks.length = t.boxes.length ∧
      (∀ b ∈ t.boxes, b.length = 4) ∧
      (∀ m ∈ t.masks, m.length = h.toNat ∧ ∀ row ∈ m, row.length = w.toNat) := by
  refine ⟨_, parse_targets_some remap rast img_id ts w h hw hh, rfl, by simp, by simp, ?_, ?_⟩
  · intro b hb
    simp only [List.mem_map] at hb
    obtain ⟨obj, _, rfl⟩ := hb
    exact convertBox_length _ _ _
  · intro m hm
    simp only [List.mem_map] at hm
    obtain ⟨obj, _, rfl⟩ := hm
    exact hrast _

/-- Witness for C1 at concrete inputs. -/
theorem C1_parse_targets_shapes_witness :
    ∃ t : Target, parse_targets (fun _ => 1) rastZero 9
        [{ bbox := ⟨0, 0, 1, 1⟩, category_id := 1, iscrowd := 0, area := 1,
           segmentation := [] }] (some 2) (some 3) = some t ∧
      t.image_id = [9] ∧
      t.labels.length = t.boxes.length ∧
      t.masks.length = t.boxes.length ∧
      (∀ b ∈ t.boxes, b.length = 4) ∧
      (∀ m ∈ t.masks, m.length = (3 : ℤ).toNat ∧ ∀ row ∈ m, row.length = (2 : ℤ).toNat) :=
  C1_parse_targets_shapes (fun _ => 1) rastZero 9 _ 2 3 (by decide) (by decide)
    (fun s => ⟨by simp [rastZero], fun row hrow => by
      rw [List.eq_of_mem_replicate hrow]; simp⟩)

/-- Positional bounds for one converted box row: even positions (x
coordinates) land in `[0, w]`, odd positions (y coordinates) in `[0, h]`. -/
theorem convertBox_getD_bounds (w h : ℚ) (hw0 : 0 ≤ w) (hh0 : 0 ≤ h) (b : BBox) (i : Nat) :
    (i % 2 = 0 → 0 ≤ (convertBox w h b).getD i 0 ∧ (convertBox w h b).getD i 0 ≤ w) ∧
    (i % 2 = 1 → 0 ≤ (convertBox w h b).getD i 0 ∧ (convertBox w h b).getD i 0 ≤ h) := by
  rw [convertBox_eq]
  rcases i with _ | _ | _ | _ | i
  · exact ⟨fun _ => by simpa using clampQ_bounds w b.x hw0, fun hmod => by omega⟩
  · exact ⟨fun hmod => by omega, fun _ => by simpa using clampQ_bounds h b.y hh0⟩
  · exact ⟨fun _ => by simpa using clampQ_bounds w (b.x + b.bw) hw0, fun hmod => by omega⟩
  · exact ⟨fun hmod => by omega, fun _ => by simpa using clampQ_bounds h (b.y + b.bh) hh0⟩
  · constructor <;> intro hmod <;> refine ⟨?_, ?_⟩ <;> simp [List.getD, hw0, hh0]

/-- C2: for every annotation with bbox `[x, y, bw, bh]` processed with
dimensions `w > 0`, `h > 0`, the converted box row is
`[clamp(x, 0, w), clamp(y, 0, h), clamp(x+bw, 0, w), clamp(y+bh, 0, h)]`,
and consequently every even-position (x) coordinate of every returned box
lies in `[0, w]` and every odd-position (y) coordinate lies in `[0, h]`. -/
theorem C2_box_conversion_and_bounds (remap : Nat → ℤ)
    (rast : Seg → ℤ → ℤ → List (List Bool)) (img_id : ℤ) (ts : List Ann)
    (w h : ℤ) (hw : 0 < w) (hh : 0 < h) (b : BBox) :
    convertBox (w : ℚ) (h : ℚ) b =
      [clampQ 0 (w : ℚ) b.x, clampQ 0 (h : ℚ) b.y,
       clampQ 0 (w : ℚ) (b.x + b.bw), clampQ 0 (h : ℚ) (b.y + b.bh)] ∧
    ∀ t : Target, parse_targets remap rast img_id ts (some w) (some h) = some t →
      ∀ box ∈ t.boxes, ∀ i : Nat, i < box.length →
        (i % 2 = 0 → 0 ≤ box.getD i 0 ∧ box.getD i 0 ≤ (w : ℚ)) ∧
        (i % 2 = 1 → 0 ≤ box.getD i 0 ∧ box.getD i 0 ≤ (h : ℚ)) := by
  have hw0 : (0 : ℚ) ≤ (w : ℚ) := by exact_mod_cast hw.le
  have hh0 : (0 : ℚ) ≤ (h : ℚ) := by exact_mod_cast hh.le
  refine ⟨convertBox_eq _ _ _, ?_⟩
  intro t ht box hbox i _
  rw [parse_targets_some remap rast img_id ts w h hw hh] at ht
  obtain rfl := Option.some.inj ht
  simp only [List.mem_map] at hbox
  obtain ⟨obj, _, rfl⟩ := hbox
  exact convertBox_getD_bounds (w : ℚ) (h : ℚ) hw0 hh0 obj.bbox i

/-- Witness for C2 at concrete inputs. -/
theorem C2_box_conversion_and_bounds_witness :
    convertBox ((1 : ℤ) : ℚ) ((1 : ℤ) : ℚ) ⟨2, 3, 4, 5⟩ =
      [clampQ 0 ((1 : ℤ) : ℚ) 2, clampQ 0 ((1 : ℤ) : ℚ) 3,
       clampQ 0 ((1 : ℤ) : ℚ) ((2 : ℚ) + 4), clampQ 0 ((1 : ℤ) : ℚ) ((3 : ℚ) + 5)] ∧
    ∀ t : Target, parse_targets (fun _ => 1) rastZero 9 [] (some 1) (some 1) = some t →
      ∀ box ∈ t.boxes, ∀ i : Nat, i < box.length →
        (i % 2 = 0 → 0 ≤ box.getD i 0 ∧ box.getD i 0 ≤ ((1 : ℤ) : ℚ)) ∧
        (i % 2 = 1 → 0 ≤ box.getD i 0 ∧ box.getD i 0 ≤ ((1 : ℤ) : ℚ)) :=
  C2_box_conversion_and_bounds (fun _ => 1) rastZero 9 [] 1 1 (by decide) (by decide) ⟨2, 3, 4, 5⟩

/-- C3: `_coco_remove_images_without_annotations` keeps an image id if and
only if its annotation list is non-empty and some annotation has a bbox
with width and height both strictly greater than 1, and this filtering is
applied to `self.ids` exactly when the mode is `"train"` (in `"val"` mode
the sorted ids are kept unfiltered). -/
theorem C3_remove_images_iff (db : CocoDB) (annsOf : Nat → List Ann)
    (ids : List Nat) (anno : List Ann) :
    ( _has_valid_annotation anno = true ↔
       anno ≠ [] ∧ ∃ obj ∈ anno, 1 < obj.bbox.bw ∧ 1 < obj.bbox.bh) ∧
    _coco_remove_images_without_annotations annsOf ids =
      ids.filter (fun i => _has_valid_annotation (annsOf i)) ∧
    init_ids db "train" =
      some (_coco_remove_images_without_annotations db.annsOf
        (db.imgIds.mergeSort (fun a b => a ≤ b))) ∧
    init_ids db "val" = some (db.imgIds.mergeSort (fun a b => a ≤ b)) :=
  ⟨_has_valid_annotation_iff anno, (removeLoop_spec annsOf ids).1,
    by simp [init_ids], by simp [init_ids]⟩

/-- Witness for C3: a concrete id list where exactly the image with a
large-enough box survives. -/
theorem C3_remove_images_iff_witness :
    _has_valid_annotation
        [{ bbox := ⟨0, 0, 2, 2⟩, category_id := 1, iscrowd := 0, area := 4,
           segmentation := [] }] = true :=
  (C3_remove_images_iff ⟨[], fun _ => [], []⟩ (fun _ => []) [] _).1.mpr
    ⟨by simp,
     { bbox := ⟨0, 0, 2, 2⟩, category_id := 1, iscrowd := 0, area := 4, segmentation := [] },
     by simp, one_lt_two, one_lt_two⟩

/-- C4: `parse_targets` keeps exactly the annotations with `iscrowd == 0`
whose converted-and-clamped box has `xmax > xmin` and `ymax > ymin`, and
`boxes`, `labels` and `masks` are all filtered by this same keep mask, in
the same order. -/
theorem C4_keep_mask_consistency (remap : Nat → ℤ)
    (rast : Seg → ℤ → ℤ → List (List Bool)) (img_id : ℤ) (ts : List Ann)
    (w h : ℤ) (hw : 0 < w) (hh : 0 < h) :
    (∃ t : Target, parse_targets remap rast img_id ts (some w) (some h) = some t ∧
      t.boxes = (keptAnns (w : ℚ) (h : ℚ) ts).map
        (fun obj => convertBox (w : ℚ) (h : ℚ) obj.bbox) ∧
      t.labels = (keptAnns (w : ℚ) (h : ℚ) ts).map (fun obj => remap obj.category_id) ∧
      t.masks = (keptAnns (w : ℚ) (h : ℚ) ts).map (fun obj => rast obj.segmentation h w) ∧
      keptAnns (w : ℚ) (h : ℚ) ts = (ts.filter (fun obj => obj.iscrowd == 0)).filter
        (fun obj => keepB (convertBox (w : ℚ) (h : ℚ) obj.bbox))) ∧
    ∀ x0 y0 x1 y1 : ℚ, (keepB [x0, y0, x1, y1] = true ↔ x1 > x0 ∧ y1 > y0) :=
  ⟨⟨_, parse_targets_some remap rast img_id ts w h hw hh, rfl, rfl, rfl, rfl⟩,
    fun x0 y0 x1 y1 => keepB_eq x0 y0 x1 y1⟩

/-- Witness for C4 at concrete inputs. -/
theorem C4_keep_mask_consistency_witness :
    (∃ t : Target, parse_targets (fun _ => 1) rastZero 9 [] (some 2) (some 3) = some t ∧
      t.boxes = (keptAnns ((2 : ℤ) : ℚ) ((3 : ℤ) : ℚ) []).map
        (fun obj => convertBox ((2 : ℤ) : ℚ) ((3 : ℤ) : ℚ) obj.bbox) ∧
      t.labels = (keptAnns ((2 : ℤ) : ℚ) ((3 : ℤ) : ℚ) []).map
        (fun obj => (fun _ : Nat => (1 : ℤ)) obj.category_id) ∧
      t.masks = (keptAnns ((2 : ℤ) : ℚ) ((3 : ℤ) : ℚ) []).map
        (fun obj => rastZero obj.segmentation 3 2) ∧
      keptAnns ((2 : ℤ) : ℚ) ((3 : ℤ) : ℚ) [] =
        (List.filter (fun obj => obj.iscrowd == 0) []).filter
          (fun obj => keepB (convertBox ((2 : ℤ) : ℚ) ((3 : ℤ) : ℚ) obj.bbox))) ∧
    ∀ x0 y0 x1 y1 : ℚ, (keepB [x0, y0, x1, y1] = true ↔ x1 > x0 ∧ y1 > y0) :=
  C4_keep_mask_consistency (fun _ => 1) rastZero 9 [] 2 3 (by decide) (by decide)

/-- C5: the remap built in train mode sends the category id at enumeration
position `i` to `i + 1`, is injective, has exactly the values `1` through
`K` in order, and every label produced by `parse_targets` is the remap
applied to the surviving annotation's `category_id`. -/
theorem C5_category_remap (cats : List (Nat × String))
    (hnd : (cats.map Prod.fst).Nodup)
    (rast : Seg → ℤ → ℤ → List (List Bool)) (img_id : ℤ) (ts : List Ann)
    (w h : ℤ) (hw : 0 < w) (hh : 0 < h) :
    (∀ (i : Nat) (hi : i < cats.length),
       List.lookup (cats.get ⟨i, hi⟩).1 (build_coco91to80 cats) = some ((i : ℤ) + 1)) ∧
    (∀ (k₁ k₂ : Nat) (v : ℤ), List.lookup k₁ (build_coco91to80 cats) = some v →
       List.lookup k₂ (build_coco91to80 cats) = some v → k₁ = k₂) ∧
    (build_coco91to80 cats).map Prod.snd =
      (List.range cats.length).map (fun i : Nat => (i : ℤ) + 1) ∧
    (parse_targets (fun c => (List.lookup c (build_coco91to80 cats)).getD 0)
        rast img_id ts (some w) (some h)).map Target.labels =
      some ((keptAnns (w : ℚ) (h : ℚ) ts).map
        (fun obj => (List.lookup obj.category_id (build_coco91to80 cats)).getD 0)) := by
  refine ⟨?_, ?_, ?_, ?_⟩
  · intro i hi
    have := lookup_enumFrom_build cats 0 i hi hnd
    simpa [build_coco91to80, List.enum] using this
  · intro k₁ k₂ v h₁ h₂
    obtain ⟨i₁, hk₁, hv₁⟩ := lookup_build_mem cats k₁ v h₁
    obtain ⟨i₂, hk₂, hv₂⟩ := lookup_build_mem cats k₂ v h₂
    have : (i₁ : ℤ) = (i₂ : ℤ) := by omega
    have hii : i₁ = i₂ := Fin.ext (by exact_mod_cast this)
    rw [← hk₁, ← hk₂, hii]
  · simp only [build_coco91to80, List.map_map]
    rw [← List.enum_map_fst cats, List.map_map]
    rfl
  · rw [parse_targets_some _ rast img_id ts w h hw hh]
    rfl

/-- Witness for C5 at a concrete two-category dataset. -/
theorem C5_category_remap_witness :
    (∀ (i : Nat) (hi : i < ([(7, "cat"), (13, "dog")] : List (Nat × String)).length),
       List.lookup (([(7, "cat"), (13, "dog")] : List (Nat × String)).get ⟨i, hi⟩).1
           (build_coco91to80 [(7, "cat"), (13, "dog")]) = some ((i : ℤ) + 1)) ∧
    (∀ (k₁ k₂ : Nat) (v : ℤ),
       List.lookup k₁ (build_coco91to80 [(7, "cat"), (13, "dog")]) = some v →
       List.lookup k₂ (build_coco91to80 [(7, "cat"), (13, "dog")]) = some v → k₁ = k₂) ∧
    (build_coco91to80 [(7, "cat"), (13, "dog")]).map Prod.snd =
      (List.range ([(7, "cat"), (13, "dog")] : List (Nat × String)).length).map
        (fun i : Nat => (i : ℤ) + 1) ∧
    (parse_targets (fun c => (List.lookup c (build_coco91to80 [(7, "cat"), (13, "dog")])).getD 0)
        rastZero 9 [] (some 2) (some 3)).map Target.labels =
      some ((keptAnns ((2 : ℤ) : ℚ) ((3 : ℤ) : ℚ) []).map
        (fun obj =>
          (List.lookup obj.category_id (build_coco91to80 [(7, "cat"), (13, "dog")])).getD 0)) :=
  C5_category_remap [(7, "cat"), (13, "dog")] (by decide) rastZero 9 [] 2 3
    (by decide) (by decide)

/-- C6: `convert_coco_poly_mask` returns one mask per input segmentation
(first dimension equals the input length); the empty segmentation list
gives the empty `(0, h, w)` tensor, and otherwise the per-segmentation
`(h, w)` masks are stacked along dimension 0. -/
theorem C6_convert_poly_mask_shape (rast : Seg → ℤ → ℤ → List (List Bool))
    (segs : List Seg) (height width : ℤ)
    (hrast : ∀ s : Seg, (rast s height width).length = height.toNat ∧
      ∀ row ∈ rast s height width, row.length = width.toNat) :
    (convert_coco_poly_mask rast segs height width).length = segs.length ∧
    convert_coco_poly_mask rast ([] : List Seg) height width = [] ∧
    convert_coco_poly_mask rast segs height width =
      segs.map (fun s => rast s height width) ∧
    ∀ m ∈ convert_coco_poly_mask rast segs height width,
      m.length = height.toNat ∧ ∀ row ∈ m, row.length = width.toNat := by
  refine ⟨by simp [convert_coco_poly_mask_eq_map], rfl,
    convert_coco_poly_mask_eq_map rast segs height width, ?_⟩
  intro m hm
  rw [convert_coco_poly_mask_eq_map] at hm
  simp only [List.mem_map] at hm
  obtain ⟨s, _, rfl⟩ := hm
  exact hrast s

/-- Witness for C6 at concrete inputs. -/
theorem C6_convert_poly_mask_shape_witness :
    (convert_coco_poly_mask rastZero [[[0, 0, 1, 1]]] 3 2).length =
      ([[[0, 0, 1, 1]]] : List Seg).length ∧
    convert_coco_poly_mask rastZero ([] : List Seg) 3 2 = [] ∧
    convert_coco_poly_mask rastZero [[[0, 0, 1, 1]]] 3 2 =
      ([[[0, 0, 1, 1]]] : List Seg).map (fun s => rastZero s 3 2) ∧
    ∀ m ∈ convert_coco_poly_mask rastZero [[[0, 0, 1, 1]]] 3 2,
      m.length = (3 : ℤ).toNat ∧ ∀ row ∈ m, row.length = (2 : ℤ).toNat :=
  C6_convert_poly_mask_shape rastZero [[[0, 0, 1, 1]]] 3 2
    (fun s => ⟨by simp [rastZero], fun row hrow => by
      rw [List.eq_of_mem_replicate hrow]; simp⟩)

/-- C7: the removal loop terminates on every finite id list (it is a
structurally recursive total function), examines each id exactly once (the
instrumented call counter equals the input length), and its result is a
subsequence of the input. -/
theorem C7_remove_single_pass_subsequence (annsOf : Nat → List Ann) (ids : List Nat) :
    (removeLoop annsOf ids).2 = ids.length ∧
    List.Sublist (_coco_remove_images_without_annotations annsOf ids) ids :=
  ⟨(removeLoop_spec annsOf ids).2, by
    rw [_coco_remove_images_without_annotations, (removeLoop_spec annsOf ids).1]
    exact List.filter_sublist ids⟩

/-- C8: `boxes`, `labels` and `masks` share the first dimension `N` (the
annotations surviving the keep mask), while `area` and `iscrowd` are not
filtered by the keep mask: their length is the number of annotations with
`iscrowd == 0`, which is strictly greater than `N` when a degenerate box is
removed (second conjunct: a concrete degenerate annotation). -/
theorem C8_area_iscrowd_not_keep_filtered (remap : Nat → ℤ)
    (rast : Seg → ℤ → ℤ → List (List Bool)) (img_id : ℤ) (ts : List Ann)
    (w h : ℤ) (hw : 0 < w) (hh : 0 < h) :
    (∃ t : Target, parse_targets remap rast img_id ts (some w) (some h) = some t ∧
      t.boxes.length = t.labels.length ∧ t.boxes.length = t.masks.length ∧
      t.area.length = (ts.filter (fun obj => obj.iscrowd == 0)).length ∧
      t.iscrowd.length = (ts.filter (fun obj => obj.iscrowd == 0)).length ∧
      t.boxes.length ≤ t.area.length) ∧
    (∃ t₀ : Target, parse_targets remap rast img_id
        [{ bbox := ⟨0, 0, 0, 0⟩, category_id := 1, iscrowd := 0, area := 5,
           segmentation := [] }] (some w) (some h) = some t₀ ∧
      t₀.boxes.length = 0 ∧ t₀.area.length = 1) := by
  have hw0 : (0 : ℚ) ≤ (w : ℚ) := by exact_mod_cast hw.le
  have hh0 : (0 : ℚ) ≤ (h : ℚ) := by exact_mod_cast hh.le
  have hbox0 : convertBox (w : ℚ) (h : ℚ) ⟨0, 0, 0, 0⟩ = [0, 0, 0, 0] := by
    rw [convertBox_eq]
    simp [clampQ_zero _ hw0, clampQ_zero _ hh0]
  have hkeep : keepB (convertBox (w : ℚ) (h : ℚ) ⟨0, 0, 0, 0⟩) = false := by
    rw [hbox0]; simp [keepB]
  constructor
  · refine ⟨_, parse_targets_some remap rast img_id ts w h hw hh,
      by simp, by simp, by simp, by simp, ?_⟩
    simpa [keptAnns] using
      List.length_filter_le (fun obj => keepB (convertBox (w : ℚ) (h : ℚ) obj.bbox))
        (ts.filter (fun obj => obj.iscrowd == 0))
  · refine ⟨_, parse_targets_some remap rast img_id _ w h hw hh, ?_, ?_⟩
    · simp [keptAnns, List.filter, hkeep]
    · simp [List.filter]

/-- Witness for C8 at concrete inputs. -/
theorem C8_area_iscrowd_not_keep_filtered_witness :
    (∃ t : Target, parse_targets (fun _ => 1) rastZero 9 [] (some 2) (some 3) = some t ∧
      t.boxes.length = t.labels.length ∧ t.boxes.length = t.masks.length ∧
      t.area.length = (List.filter (fun obj => obj.iscrowd == 0) ([] : List Ann)).length ∧
      t.iscrowd.length = (List.filter (fun obj => obj.iscrowd == 0) ([] : List Ann)).length ∧
      t.boxes.length ≤ t.area.length) ∧
    (∃ t₀ : Target, parse_targets (fun _ => 1) rastZero 9
        [{ bbox := ⟨0, 0, 0, 0⟩, category_id := 1, iscrowd := 0, area := 5,
           segmentation := [] }] (some 2) (some 3) = some t₀ ∧
      t₀.boxes.length = 0 ∧ t₀.area.length = 1) :=
  C8_area_iscrowd_not_keep_filtered (fun _ => 1) rastZero 9 [] 2 3 (by decide) (by decide)

/-- C9: `parse_targets` requires `w > 0` and `h > 0` at entry: with a
missing dimension (the Python default `None`) or a non-positive one it
fails before any target is constructed (`none`, no partial result), and
with positive dimensions it succeeds. -/
theorem C9_dimension_preconditions (remap : Nat → ℤ)
    (rast : Seg → ℤ → ℤ → List (List Bool)) (img_id : ℤ) (ts : List Ann) :
    (∀ hOpt : Option ℤ, parse_targets remap rast img_id ts none hOpt = none) ∧
    (∀ wOpt : Option ℤ, parse_targets remap rast img_id ts wOpt none = none) ∧
    (∀ w h : ℤ, ¬ (0 < w ∧ 0 < h) →
      parse_targets remap rast img_id ts (some w) (some h) = none) ∧
    (∀ w h : ℤ, 0 < w → 0 < h →
      (parse_targets remap rast img_id ts (some w) (some h)).isSome = true) := by
  refine ⟨fun hOpt => ?_, fun wOpt => ?_, fun w h hne => ?_, fun w h hw hh => ?_⟩
  · cases hOpt <;> rfl
  · cases wOpt <;> rfl
  · simp [parse_targets, hne]
  · rw [parse_targets_some remap rast img_id ts w h hw hh]; rfl

/-- Witness for C9 at concrete inputs. -/
theorem C9_dimension_preconditions_witness :
    parse_targets (fun _ => 1) rastZero 9 [] none (some 5) = none ∧
    parse_targets (fun _ => 1) rastZero 9 [] (some 5) none = none ∧
    parse_targets (fun _ => 1) rastZero 9 [] (some 0) (some 5) = none ∧
    (parse_targets (fun _ => 1) rastZero 9 [] (some 2) (some 3)).isSome = true := by
  obtain ⟨h1, h2, h3, h4⟩ := C9_dimension_preconditions (fun _ => 1) rastZero 9 []
  exact ⟨h1 (some 5), h2 (some 5), h3 0 5 (by decide), h4 2 3 (by decide) (by decide)⟩

/-- C10: after construction `self.ids` is sorted ascending in both modes;
in val mode it contains every image id of the annotation file (so `__len__`
is the total number of images), and in train mode it is the filtered
subset of the val-mode list. -/
theorem C10_ids_sorted_and_complete (db : CocoDB) :
    ∃ lt lv : List Nat,
      init_ids db "train" = some lt ∧ init_ids db "val" = some lv ∧
      List.Sorted (· ≤ ·) lt ∧ List.Sorted (· ≤ ·) lv ∧
      (∀ i : Nat, i ∈ lv ↔ i ∈ db.imgIds) ∧
      coco_len lv = db.imgIds.length ∧
      lt = lv.filter (fun i => _has_valid_annotation (db.annsOf i)) ∧
      List.Sublist lt lv := by
  refine ⟨_coco_remove_images_without_annotations db.annsOf
      (db.imgIds.mergeSort (fun a b => a ≤ b)),
    db.imgIds.mergeSort (fun a b => a ≤ b),
    by simp [init_ids], by simp [init_ids], ?_, ?_, ?_, ?_, ?_, ?_⟩
  · rw [_coco_remove_images_without_annotations,
      (removeLoop_spec db.annsOf (db.imgIds.mergeSort (fun a b => a ≤ b))).1]
    exact (List.sorted_mergeSort' db.imgIds).sublist
      (List.filter_sublist (db.imgIds.mergeSort (fun a b => a ≤ b)))
  · exact List.sorted_mergeSort' db.imgIds
  · intro i
    exact (List.mergeSort_perm db.imgIds _).mem_iff
  · exact (List.mergeSort_perm db.imgIds _).length_eq
  · exact (removeLoop_spec db.annsOf (db.imgIds.mergeSort (fun a b => a ≤ b))).1
  · rw [_coco_remove_images_without_annotations,
      (removeLoop_spec db.annsOf (db.imgIds.mergeSort (fun a b => a ≤ b))).1]
    exact List.filter_sublist (db.imgIds.mergeSort (fun a b => a ≤ b))

end CocoDataset
